import Mathlib

/-!
CPP_exceptions_and_multithreading : verification development

Shallow embedding of

* `src/multithreading/std_cond_var.cpp`  (class `ThreadSafeQueue`)
* `src/error_handling/error_codes.{h,c}` (`get_error_string`, `divide_integers`,
  `open_and_read_file`, `process_config_file`)
* `src/task1_1.{hpp,cpp}`                (`GetErrorString`, `DivideIntegers`)
* `src/error_handling/safe_container.cpp` (class `SafeContainer<T>`)

Definitions come first, theorems afterwards.
-/

set_option autoImplicit false

/-! Part I. Definitions -/

/-! ### `std_cond_var.cpp` : `ThreadSafeQueue`

The three member functions each take `mutex_` for their whole body, so every call
is one atomic transition of the member `queue_`.  A call that waits on the
condition variable with a false predicate does not make a transition: it is
`blocked` in that state. -/

namespace StdQueue

/-- Model of `std::queue<int>::empty()`. -/
def empty (q : List Int) : Bool := q.isEmpty

/-- Model of `std::queue<int>::push(item)`: append at the back. -/
def push (q : List Int) (item : Int) : List Int := q ++ [item]

/-- Model of `std::queue<int>::front()`: the oldest element; calling it on an empty
queue is undefined, rendered as `none`. -/
def front (q : List Int) : Option Int := q.head?

/-- Model of `std::queue<int>::pop()`: drop the oldest element. -/
def pop (q : List Int) : List Int := q.tail

end StdQueue

/-- Data members of `class ThreadSafeQueue` that carry state: `std::queue<int> queue_`.
(The class declares no capacity and no closed flag.) -/
structure ThreadSafeQueue where
  queue_ : List Int
deriving DecidableEq, Repr

/-- Outcome of one member call started in a given state. -/
inductive Call (α : Type) where
  | done (ret : α) (next : ThreadSafeQueue)
  | blocked
  | undefined
deriving DecidableEq, Repr

namespace ThreadSafeQueue

/-- A default-constructed `ThreadSafeQueue q;`. -/
def init : ThreadSafeQueue := { queue_ := [] }

/-- Model of `void push(int item)`: lock, `queue_.push(item)`, `notify_one`. -/
def push (self : ThreadSafeQueue) (item : Int) : Call Unit :=
  Call.done () { queue_ := StdQueue.push self.queue_ item }

/-- Model of `int pop()`: lock, wait until `!queue_.empty()`, then
`result = queue_.front(); queue_.pop(); return result;`. -/
def pop (self : ThreadSafeQueue) : Call Int :=
  if !(StdQueue.empty self.queue_) then
    match StdQueue.front self.queue_ with
    | some result => Call.done result { queue_ := StdQueue.pop self.queue_ }
    | none => Call.undefined
  else
    Call.blocked

/-- Model of `bool empty()`: lock, `return queue_.empty();`. -/
def empty (self : ThreadSafeQueue) : Call Bool :=
  Call.done (StdQueue.empty self.queue_) self

end ThreadSafeQueue

/-- One member call of a `ThreadSafeQueue`. -/
inductive QueueOp where
  | push (item : Int)
  | pop
  | empty
deriving DecidableEq, Repr

/-- The values handed to `push`, in call order. -/
def pushedValues : List QueueOp → List Int
  | [] => []
  | QueueOp.push item :: ops => item :: pushedValues ops
  | _ :: ops => pushedValues ops

/-- Run a sequence of atomic member calls from state `s`.  The result is the list
of values returned by the `pop` calls together with the final state, or `none`
when some call of the sequence cannot complete in the state it is started in. -/
def execOps : ThreadSafeQueue → List QueueOp → Option (List Int × ThreadSafeQueue)
  | s, [] => some ([], s)
  | s, QueueOp.push item :: ops =>
    match s.push item with
    | Call.done _ s1 => execOps s1 ops
    | _ => none
  | s, QueueOp.pop :: ops =>
    match s.pop with
    | Call.done r s1 =>
      match execOps s1 ops with
      | some (rs, s2) => some (r :: rs, s2)
      | none => none
    | _ => none
  | s, QueueOp.empty :: ops =>
    match s.empty with
    | Call.done _ s1 => execOps s1 ops
    | _ => none

/-- The call sequence `push(1); push(2); ...; push(n)`. -/
def pushUpTo (n : Nat) : List QueueOp :=
  (List.range n).map (fun i => QueueOp.push (Int.ofNat i + 1))

/-! ### `error_codes.h`, `error_codes.c`, `task1_1.hpp`, `task1_1.cpp`

`int` is the 32-bit two's-complement type; `long` and `size_t` are 64 bits wide
(LP64).  Values of the enumeration types are carried as integers, since
`get_error_string` is defined on every value that can be passed in. -/

/-- Least value of the C type `int`. -/
def INT_MIN : Int := -2147483648

/-- Greatest value of the C type `int`. -/
def INT_MAX : Int := 2147483647

/-- The integer `x` is a value of the C type `int`. -/
def isInt (x : Int) : Prop := INT_MIN ≤ x ∧ x ≤ INT_MAX

instance (x : Int) : Decidable (isInt x) := by
  unfold isInt
  exact inferInstance

/-- Enumerator of `result_code_t`. -/
def RESULT_SUCCESS : Int := 0
/-- Enumerator of `result_code_t`. -/
def RESULT_ERROR_FILE_NOT_FOUND : Int := 1
/-- Enumerator of `result_code_t`. -/
def RESULT_ERROR_INSUFFICIENT_MEMORY : Int := 2
/-- Enumerator of `result_code_t`. -/
def RESULT_ERROR_INVALID_PARAMETER : Int := 3
/-- Enumerator of `result_code_t`. -/
def RESULT_ERROR_ACCESS_DENIED : Int := 4
/-- Enumerator of `result_code_t`. -/
def RESULT_ERROR_DISK_FULL : Int := 5
/-- Enumerator of `result_code_t`. -/
def RESULT_ERROR_TIMEOUT : Int := 6
/-- Enumerator of `result_code_t`. -/
def RESULT_ERROR_NETWORK_FAILURE : Int := 7
/-- Enumerator of `result_code_t`: the number of codes. -/
def RESULT_ERROR_COUNT : Int := 8

/-- The C struct `result_t`; every use in the sources goes through the union member
`value.int_value`. -/
structure result_t where
  code : Int
  int_value : Int
deriving DecidableEq, Repr

/-- Model of the macro `MAKE_SUCCESS(val)`. -/
def MAKE_SUCCESS (val : Int) : result_t := { code := RESULT_SUCCESS, int_value := val }

/-- Model of the macro `MAKE_ERROR(code)`. -/
def MAKE_ERROR (code : Int) : result_t := { code := code, int_value := 0 }

/-- Model of the macro `IS_SUCCESS(result)`. -/
def IS_SUCCESS (result : result_t) : Bool := result.code == RESULT_SUCCESS

/-- Model of the macro `IS_ERROR(result)`. -/
def IS_ERROR (result : result_t) : Bool := result.code != RESULT_SUCCESS

/-- The table `static const char* error_messages[]` of `get_error_string`. -/
def error_messages : List String :=
  ["Success",
   "File not found",
   "Insufficient memory",
   "Invalid parameter",
   "Access denied",
   "Disk full",
   "Timeout",
   "Network failure"]

/-- Model of `const char* get_error_string(result_code_t code)`.  The result is
`none` when no valid string is returned (a null pointer, or a table read outside
the table). -/
def get_error_string (code : Int) : Option String :=
  if code ≥ 0 ∧ code < RESULT_ERROR_COUNT then
    error_messages[code.toNat]?
  else
    some "Unknown error"

/-- C integer division `a / b` on `int`: the quotient truncated toward zero.  It
has no value (undefined behaviour) when `b` is zero or when the quotient is not
representable in `int`. -/
def c_int_div (a b : Int) : Option Int :=
  if b = 0 then none
  else if isInt (Int.tdiv a b) then some (Int.tdiv a b)
  else none

/-- Model of `result_t divide_integers(int a, int b)`; `none` is undefined
behaviour of the division. -/
def divide_integers (a b : Int) : Option result_t :=
  if b = 0 then
    some (MAKE_ERROR RESULT_ERROR_INVALID_PARAMETER)
  else
    (c_int_div a b).map MAKE_SUCCESS

namespace ResultCode

/-- Enumerator of `enum class ResultCode`. -/
def Success : Int := 0
/-- Enumerator of `enum class ResultCode`. -/
def FileNotFound : Int := 1
/-- Enumerator of `enum class ResultCode`. -/
def InsufficientMemory : Int := 2
/-- Enumerator of `enum class ResultCode`. -/
def InvalidParameter : Int := 3
/-- Enumerator of `enum class ResultCode`. -/
def AccessDenied : Int := 4
/-- Enumerator of `enum class ResultCode`. -/
def DiskFull : Int := 5
/-- Enumerator of `enum class ResultCode`. -/
def Timeout : Int := 6
/-- Enumerator of `enum class ResultCode`. -/
def NetworkFailure : Int := 7
/-- Enumerator of `enum class ResultCode`. -/
def Count : Int := 8

end ResultCode

/-- The type `std::variant<int, double, void*>`; the `double` and pointer
alternatives are carried by their bit pattern and address. -/
inductive Variant where
  | int (v : Int)
  | double (bits : Nat)
  | ptr (addr : Nat)
deriving DecidableEq, Repr

/-- The C++ struct `Result`. -/
structure Result where
  code : Int
  value : Variant
deriving DecidableEq, Repr

/-- Model of `Result MakeSuccess(int val)`. -/
def MakeSuccess (val : Int) : Result := { code := ResultCode.Success, value := Variant.int val }

/-- Model of `Result MakeError(ResultCode code)`. -/
def MakeError (code : Int) : Result := { code := code, value := Variant.int 0 }

/-- Model of `const char* GetErrorString(ResultCode code)`. -/
def GetErrorString (code : Int) : Option String :=
  let idx := code
  if idx ≥ 0 ∧ idx < ResultCode.Count then error_messages[idx.toNat]? else some "Unknown error"

/-- Model of `Result DivideIntegers(int a, int b)`. -/
def DivideIntegers (a b : Int) : Option Result :=
  if b = 0 then
    some (MakeError ResultCode.InvalidParameter)
  else
    (c_int_div a b).map MakeSuccess

/-! ### `error_codes.c` : `open_and_read_file`, `process_config_file`

The C library is an explicit environment: what `fopen`, `ftell`, `fread` and
`malloc` answer.  Bytes are natural numbers, a `char*` value is `none` (NULL) or
the address of a block, and the heap lists the live `malloc` blocks. -/

/-- The `errno` value `ENOENT`. -/
def ENOENT : Int := 2

/-- The `errno` value `EACCES`. -/
def EACCES : Int := 13

/-- Greatest value of the C type `long`. -/
def LONG_MAX : Int := 9223372036854775807

/-- Conversion of an integer value to `size_t` (reduction modulo `2^64`). -/
def to_size_t (x : Int) : Nat := (x % 18446744073709551616).toNat

/-- What the C library answers for a stream that `fopen` has opened. -/
structure OpenFile where
  /-- value of `ftell` after `fseek(file, 0, SEEK_END)` (`-1` on failure) -/
  ftell_end : Int
  /-- bytes of the file from offset `0` -/
  contents : List Nat
  /-- number of bytes after which `fread` stops with a read error -/
  read_limit : Nat

/-- The environment of a call: file system and allocator. -/
structure Env where
  /-- answer of `fopen(filename, "rb")`: the stream, or the `errno` of the failure -/
  fopen : String → Except Int OpenFile
  /-- answer of `malloc(n)`: the address of a fresh block, or `none` for NULL -/
  malloc : Nat → Option Nat

/-- A value of type `char*`: NULL or an address. -/
abbrev CharPtr := Option Nat

/-- Live heap blocks: address and bytes. -/
abbrev Heap := List (Nat × List Nat)

/-- Model of `fread(ptr, 1, count, file)` on a stream positioned at offset `0`: the
bytes transferred. -/
def fread (file : OpenFile) (count : Nat) : List Nat :=
  file.contents.take (min count file.read_limit)

/-- Model of `free(p)` for the address of a live block. -/
def free (heap : Heap) (p : Nat) : Heap := heap.eraseP (fun blk => blk.1 == p)

/-- State after a call of `open_and_read_file`: the returned `result_t`, the objects
`*buffer` and `*size` (`none` when the corresponding argument is a null pointer)
and the heap. -/
structure ReadOutcome where
  result : result_t
  buffer : Option CharPtr
  size : Option Nat
  heap : Heap
deriving DecidableEq, Repr

/-- Model of `result_t open_and_read_file(const char* filename, char** buffer,
size_t* size)`.  The arguments `buffer` and `size` are `none` for a null pointer and
otherwise carry the value stored in the pointed-to object before the call.  The
result `none` is undefined behaviour (signed overflow, a transfer or a store
outside the allocated block). -/
def open_and_read_file (env : Env) (heap : Heap) (filename : Option String)
    (buffer : Option CharPtr) (size : Option Nat) : Option ReadOutcome :=
  match filename, buffer, size with
  | some name, some buf0, some size0 =>
    match env.fopen name with
    | Except.error errno =>
      if errno = ENOENT then
        some { result := MAKE_ERROR RESULT_ERROR_FILE_NOT_FOUND,
               buffer := some buf0, size := some size0, heap := heap }
      else if errno = EACCES then
        some { result := MAKE_ERROR RESULT_ERROR_ACCESS_DENIED,
               buffer := some buf0, size := some size0, heap := heap }
      else
        some { result := MAKE_ERROR RESULT_ERROR_FILE_NOT_FOUND,
               buffer := some buf0, size := some size0, heap := heap }
    | Except.ok file =>
      let file_size : Int := file.ftell_end
      if file_size + 1 > LONG_MAX then none
      else
        -- *buffer = malloc(file_size + 1);
        match env.malloc (to_size_t (file_size + 1)) with
        | none =>
          some { result := MAKE_ERROR RESULT_ERROR_INSUFFICIENT_MEMORY,
                 buffer := some none, size := some size0, heap := heap }
        | some p =>
          let got := fread file (to_size_t file_size)
          let bytes_read := got.length
          if bytes_read > to_size_t (file_size + 1) then none
          else if bytes_read ≠ to_size_t file_size then
            -- free(*buffer); *buffer = NULL;
            some { result := MAKE_ERROR RESULT_ERROR_FILE_NOT_FOUND,
                   buffer := some none, size := some size0,
                   heap := free ((p, got) :: heap) p }
          else if file_size < 0 then none
          else
            -- (*buffer)[file_size] = 0; *size = file_size;
            some { result := MAKE_SUCCESS 0,
                   buffer := some (some p), size := some (to_size_t file_size),
                   heap := (p, got ++ [0]) :: heap }
  | _, _, _ =>
    some { result := MAKE_ERROR RESULT_ERROR_INVALID_PARAMETER,
           buffer := buffer, size := size, heap := heap }

/-- An environment in which the file holds `abc` and `malloc` fails. -/
def noMemoryEnv : Env :=
  { fopen := fun _ => Except.ok { ftell_end := 3, contents := [97, 98, 99], read_limit := 3 },
    malloc := fun _ => none }

/-- An environment in which `ftell` reports `3` bytes and `fread` delivers only
`2` of them. -/
def shortReadEnv : Env :=
  { fopen := fun _ => Except.ok { ftell_end := 3, contents := [97, 98, 99], read_limit := 2 },
    malloc := fun _ => some 4096 }

/-- An environment in which `fopen` fails with the given `errno`. -/
def openFailsEnv (errno : Int) : Env :=
  { fopen := fun _ => Except.error errno,
    malloc := fun _ => some 4096 }

/-! ### `safe_container.cpp` : `SafeContainer<T>`

An array cell holds `some v` once a value was stored in it and `none` while it
still has the indeterminate value left by `new T[n]`.  Each container owns its
array (the copy constructor copies it, the move operations null the source), so the
array is carried by value.  Objects live in a store and are named by their
position in it, which gives `this != &other` its meaning. -/

/-- Ways in which a member function can end without returning. -/
inductive Fault where
  /-- thrown by `new T[n]`: `std::bad_alloc` -/
  | bad_alloc
  /-- thrown by `push_back`: `std::overflow_error` -/
  | overflow_error
  /-- thrown by `operator[]`: `std::out_of_range` -/
  | out_of_range
  /-- undefined behaviour (access through a null pointer or outside the array) -/
  | undefined
deriving DecidableEq, Repr

/-- Data members of `SafeContainer<T>`: `T* data_` (`none` for `nullptr`, otherwise
the cells of the array it points to), `size_t size_`, `size_t capacity_`. -/
structure SafeContainer (T : Type) where
  data_ : Option (List (Option T))
  size_ : Nat
  capacity_ : Nat
deriving DecidableEq, Repr

namespace SafeContainer

variable {T : Type}

/-- The loop `for (i = 0; i < count; ++i) dest[i] = source[i];` of `safe_copy`,
entered at index `i` with `remaining = count - i` iterations to go. -/
def copy_loop (source : List (Option T)) :
    Nat → Nat → List (Option T) → Except Fault (List (Option T))
  | _, 0, dest => Except.ok dest
  | i, remaining + 1, dest =>
    match source[i]? with
    | some v =>
      if i < dest.length then copy_loop source (i + 1) remaining (dest.set i v)
      else Except.error Fault.undefined
    | none => Except.error Fault.undefined

/-- Model of `T* safe_copy(const T* source, size_t count)`; `alloc n` tells whether
`new T[n]` succeeds. -/
def safe_copy (alloc : Nat → Bool) (source : Option (List (Option T))) (count : Nat) :
    Except Fault (Option (List (Option T))) :=
  if count = 0 then Except.ok none
  else if alloc count then
    let dest : List (Option T) := List.replicate count none
    match source with
    | some src =>
      match copy_loop src 0 count dest with
      | Except.ok filled => Except.ok (some filled)
      | Except.error f => Except.error f
    | none => Except.error Fault.undefined
  else Except.error Fault.bad_alloc

/-- Model of the default constructor `SafeContainer()`. -/
def default_ctor : SafeContainer T := { data_ := none, size_ := 0, capacity_ := 0 }

/-- Model of `explicit SafeContainer(size_t capacity)`. -/
def with_capacity (alloc : Nat → Bool) (capacity : Nat) : Except Fault (SafeContainer T) :=
  if alloc capacity then
    Except.ok { data_ := some (List.replicate capacity none), size_ := 0, capacity_ := capacity }
  else Except.error Fault.bad_alloc

/-- Model of the copy constructor `SafeContainer(const SafeContainer& other)`. -/
def copy_ctor (alloc : Nat → Bool) (other : SafeContainer T) :
    Except Fault (SafeContainer T) :=
  match safe_copy alloc other.data_ other.capacity_ with
  | Except.ok d => Except.ok { data_ := d, size_ := other.size_, capacity_ := other.capacity_ }
  | Except.error f => Except.error f

/-- Model of `void swap(SafeContainer& other) noexcept`: the pair of `*this` and
`other` after the three member swaps. -/
def swap (self other : SafeContainer T) : SafeContainer T × SafeContainer T :=
  ({ data_ := other.data_, size_ := other.size_, capacity_ := other.capacity_ },
   { data_ := self.data_, size_ := self.size_, capacity_ := self.capacity_ })

/-- Model of `void push_back(const T& value)`. -/
def push_back (self : SafeContainer T) (value : T) : Except Fault (SafeContainer T) :=
  if self.size_ ≥ self.capacity_ then Except.error Fault.overflow_error
  else
    match self.data_ with
    | some cells =>
      if self.size_ < cells.length then
        Except.ok { data_ := some (cells.set self.size_ (some value)),
                    size_ := self.size_ + 1, capacity_ := self.capacity_ }
      else Except.error Fault.undefined
    | none => Except.error Fault.undefined

/-- Model of `operator[](size_t index)`: the cell the returned reference denotes. -/
def subscript (self : SafeContainer T) (index : Nat) : Except Fault (Option T) :=
  if index ≥ self.size_ then Except.error Fault.out_of_range
  else
    match self.data_ with
    | some cells =>
      match cells[index]? with
      | some cell => Except.ok cell
      | none => Except.error Fault.undefined
    | none => Except.error Fault.undefined

/-- Model of `size()`. -/
def size (self : SafeContainer T) : Nat := self.size_

/-- Model of `capacity()`. -/
def capacity (self : SafeContainer T) : Nat := self.capacity_

/-- Model of copy assignment `SafeContainer& operator=(const SafeContainer& other)`
executed as `objs[this] = objs[other]`: the store after the assignment. -/
def copy_assign (alloc : Nat → Bool) (objs : List (SafeContainer T)) (this other : Nat) :
    Except Fault (List (SafeContainer T)) :=
  match objs[this]?, objs[other]? with
  | some self, some oth =>
    if this ≠ other then
      match copy_ctor alloc oth with
      | Except.ok temp =>
        -- swap(temp); afterwards `temp` is destroyed
        Except.ok (objs.set this (swap self temp).1)
      | Except.error f => Except.error f
    else Except.ok objs
  | _, _ => Except.error Fault.undefined

/-- Class invariant kept by every constructor and member function: `size_` does not
exceed `capacity_`, and `data_` is either null with capacity zero or an array of
exactly `capacity_` cells. -/
def WF (c : SafeContainer T) : Prop :=
  c.size_ ≤ c.capacity_ ∧
  match c.data_ with
  | some cells => cells.length = c.capacity_
  | none => c.capacity_ = 0

/-- The cell at `index` of the array, if there is one. -/
def cell (c : SafeContainer T) (index : Nat) : Option (Option T) :=
  match c.data_ with
  | some cells => cells[index]?
  | none => none

end SafeContainer

/-- The three `push_back` calls of `main` on a fresh `SafeContainer<int> container1(10)`. -/
def demo_container1 : Except Fault (SafeContainer Int) :=
  match SafeContainer.with_capacity (fun _ => true) 10 with
  | Except.ok c0 =>
    match c0.push_back 1 with
    | Except.ok c1 =>
      match c1.push_back 2 with
      | Except.ok c2 => c2.push_back 3
      | Except.error f => Except.error f
    | Except.error f => Except.error f
  | Except.error f => Except.error f

/-- The value of `container1` in `main` after the three `push_back` calls. -/
def container1 : SafeContainer Int :=
  { data_ := some [some 1, some 2, some 3, none, none, none, none, none, none, none],
    size_ := 3, capacity_ := 10 }

/-- The value of `container2` in `main` after `SafeContainer<int> container2(20)`. -/
def container2 : SafeContainer Int :=
  { data_ := some (List.replicate 20 none), size_ := 0, capacity_ := 20 }

/-! Part II. Theorems -/

theorem ThreadSafeQueue.pop_cons (r : Int) (q : List Int) :
    ThreadSafeQueue.pop { queue_ := r :: q } = Call.done r { queue_ := q } := rfl

theorem ThreadSafeQueue.pop_nil :
    ThreadSafeQueue.pop { queue_ := [] } = Call.blocked := rfl

theorem execOps_fifo_aux (ops : List QueueOp) :
    ∀ (s : ThreadSafeQueue) (popped : List Int) (fin : ThreadSafeQueue),
      execOps s ops = some (popped, fin) →
      popped ++ fin.queue_ = s.queue_ ++ pushedValues ops := by
  induction ops with
  | nil =>
    intro s popped fin h
    simp [execOps] at h
    obtain ⟨h1, h2⟩ := h
    subst h1; subst h2
    simp [pushedValues]
  | cons op ops ih =>
    intro s popped fin h
    cases op with
    | push item =>
      simp only [execOps, ThreadSafeQueue.push] at h
      have := ih _ _ _ h
      simpa [pushedValues, StdQueue.push] using this
    | pop =>
      obtain ⟨q⟩ := s
      cases q with
      | nil => simp [execOps, ThreadSafeQueue.pop_nil] at h
      | cons r q =>
        simp only [execOps, ThreadSafeQueue.pop_cons] at h
        cases hrec : execOps { queue_ := q } ops with
        | none => simp [hrec] at h
        | some p =>
          obtain ⟨rs, s2⟩ := p
          simp [hrec] at h
          obtain ⟨h1, h2⟩ := h
          subst h1; subst h2
          have := ih _ _ _ hrec
          simpa [pushedValues] using this
    | empty =>
      simp only [execOps, ThreadSafeQueue.empty] at h
      have := ih _ _ _ h
      simpa [pushedValues] using this

/-- C1. FIFO, no loss, no duplication: whenever a finite sequence of atomic `push`,
`pop` (and `empty`) calls runs to completion from the initially empty queue, the
values returned by the pops followed by the items still queued are exactly the
pushed values in push order. -/
theorem ThreadSafeQueue_fifo (ops : List QueueOp) (popped : List Int)
    (fin : ThreadSafeQueue)
    (h : execOps ThreadSafeQueue.init ops = some (popped, fin)) :
    popped ++ fin.queue_ = pushedValues ops := by
  have := execOps_fifo_aux ops ThreadSafeQueue.init popped fin h
  simpa [ThreadSafeQueue.init] using this

/-- A completed run with two pops, to which the FIFO theorem applies. -/
theorem ThreadSafeQueue_fifo_witness :
    execOps ThreadSafeQueue.init
        [QueueOp.push 7, QueueOp.push 8, QueueOp.pop, QueueOp.push 9, QueueOp.pop]
      = some ([7, 8], { queue_ := [9] }) ∧
    [7, 8] ++ [9] =
      pushedValues [QueueOp.push 7, QueueOp.push 8, QueueOp.pop, QueueOp.push 9, QueueOp.pop] :=
  ⟨by decide, ThreadSafeQueue_fifo _ [7, 8] { queue_ := [9] } (by decide)⟩

theorem execOps_pushes (xs : List Int) :
    ∀ s : ThreadSafeQueue,
      execOps s (xs.map QueueOp.push) = some ([], { queue_ := s.queue_ ++ xs }) := by
  induction xs with
  | nil => intro s; simp [execOps]
  | cons x xs ih =>
    intro s
    simp only [List.map_cons, execOps, ThreadSafeQueue.push, StdQueue.push]
    rw [ih]
    simp

/-- Draining: on a queue holding `items`, `items.length` successive pops return
`items` in enqueue order and leave the queue empty. -/
theorem execOps_pops (items : List Int) :
    execOps { queue_ := items } (List.replicate items.length QueueOp.pop)
      = some (items, { queue_ := [] }) := by
  induction items with
  | nil => simp [execOps]
  | cons x xs ih =>
    simp only [List.length_cons, List.replicate_succ, execOps, ThreadSafeQueue.pop_cons]
    rw [ih]

/-- C2. The capacity invariant fails on the code: `push` never waits, so for any
intended capacity `cap` the calls `push(1) ... push(cap+1)` all complete at once and
leave `cap + 1` items queued; in particular `push(3)` on a queue holding `1, 2`
completes immediately instead of waiting for a `pop`. -/
theorem ThreadSafeQueue_push_ignores_capacity (cap : Nat) :
    (∀ (s : ThreadSafeQueue) (item : Int),
        s.push item = Call.done () { queue_ := s.queue_ ++ [item] }) ∧
    (∃ fin, execOps ThreadSafeQueue.init (pushUpTo (cap + 1)) = some ([], fin) ∧
        cap < fin.queue_.length) ∧
    execOps ThreadSafeQueue.init [QueueOp.push 1, QueueOp.push 2, QueueOp.push 3]
      = some ([], { queue_ := [1, 2, 3] }) := by
  refine ⟨fun s item => rfl, ?_, by decide⟩
  refine ⟨{ queue_ := (List.range (cap + 1)).map (fun i => Int.ofNat i + 1) }, ?_, ?_⟩
  · have := execOps_pushes ((List.range (cap + 1)).map (fun i => Int.ofNat i + 1))
      ThreadSafeQueue.init
    simpa [pushUpTo, List.map_map, Function.comp_def, ThreadSafeQueue.init] using this
  · simp

/-- C3. `pop` completes exactly from the non-empty states: it returns `r` and
leaves `rest` iff the queue was `r :: rest` (head returned, the remaining items in
unchanged order); it waits iff the queue is empty; and it never evaluates
`front()` on an empty queue. -/
theorem ThreadSafeQueue_pop_spec (s : ThreadSafeQueue) :
    (∀ (r : Int) (next : ThreadSafeQueue),
        s.pop = Call.done r next ↔ s.queue_ = r :: next.queue_) ∧
    (s.pop = Call.blocked ↔ s.queue_ = []) ∧
    s.pop ≠ Call.undefined := by
  obtain ⟨q⟩ := s
  cases q with
  | nil =>
    refine ⟨?_, ?_, ?_⟩
    · intro r next
      simp [ThreadSafeQueue.pop_nil]
    · simp [ThreadSafeQueue.pop_nil]
    · simp [ThreadSafeQueue.pop_nil]
  | cons x xs =>
    refine ⟨?_, ?_, ?_⟩
    · intro r next
      obtain ⟨n⟩ := next
      simp [ThreadSafeQueue.pop_cons]
    · simp [ThreadSafeQueue.pop_cons]
    · simp [ThreadSafeQueue.pop_cons]

/-- C10. `empty` is a pure query: in every state it completes (it never waits),
returns `true` exactly when the queue holds zero items, and leaves the queue
unchanged. -/
theorem ThreadSafeQueue_empty_pure (s : ThreadSafeQueue) :
    ∃ b : Bool, s.empty = Call.done b s ∧ (b = true ↔ s.queue_.length = 0) := by
  refine ⟨StdQueue.empty s.queue_, rfl, ?_⟩
  simp [StdQueue.empty, List.isEmpty_iff]

/-! ### Error codes -/

theorem tdiv_isInt (a b : Int) (ha : isInt a) (hb : b ≠ 0)
    (hne : ¬ (a = INT_MIN ∧ b = -1)) : isInt (Int.tdiv a b) := by
  unfold isInt INT_MIN INT_MAX at *
  have h1 : (Int.tdiv a b).natAbs = a.natAbs / b.natAbs := Int.natAbs_tdiv a b
  have h2 : a.natAbs / b.natAbs ≤ a.natAbs := Nat.div_le_self _ _
  refine ⟨by omega, ?_⟩
  by_contra hgt
  have ha2 : a = -2147483648 := by omega
  have hb1 : b.natAbs < 2 := by
    by_contra hge
    have h3 : a.natAbs / b.natAbs ≤ a.natAbs / 2 :=
      Nat.div_le_div_left (by omega) (by omega)
    omega
  have hb2 : b = 1 ∨ b = -1 := by omega
  rcases hb2 with hb2 | hb2
  · subst hb2
    rw [Int.tdiv_one] at hgt
    omega
  · exact hne ⟨ha2, hb2⟩

/-- C5 (as stated, refuted). For `a = INT_MIN` and `b = -1`, both `int` values with
`b != 0`, the truncated quotient `2147483648` is not a value of `int`; the
division in `divide_integers` and in `DivideIntegers` is undefined there and no
success result carrying the quotient is produced. -/
theorem divide_integers_INT_MIN_neg_one :
    isInt INT_MIN ∧ isInt (-1) ∧ (-1 : Int) ≠ 0 ∧
    Int.tdiv INT_MIN (-1) = 2147483648 ∧
    ¬ isInt (Int.tdiv INT_MIN (-1)) ∧
    divide_integers INT_MIN (-1) = none ∧
    DivideIntegers INT_MIN (-1) = none ∧
    divide_integers INT_MIN (-1) ≠ some (MAKE_SUCCESS (Int.tdiv INT_MIN (-1))) := by
  decide

/-- C5 (amended). For `int` values `a`, `b` with `b != 0`, other than the pair
`a = INT_MIN`, `b = -1`, `divide_integers` and `DivideIntegers` return a success
(code `RESULT_SUCCESS`) whose int value is the quotient of `a` by `b` truncated
toward zero, itself an `int`; for `b == 0` and every `a` they return the error
`RESULT_ERROR_INVALID_PARAMETER` with int value `0`. -/
theorem divide_integers_spec (a b : Int) (ha : isInt a) (_hb : isInt b) :
    (b ≠ 0 → ¬ (a = INT_MIN ∧ b = -1) →
        divide_integers a b
          = some { code := RESULT_SUCCESS, int_value := Int.tdiv a b } ∧
        DivideIntegers a b
          = some { code := ResultCode.Success, value := Variant.int (Int.tdiv a b) } ∧
        isInt (Int.tdiv a b)) ∧
    (b = 0 →
        divide_integers a b
          = some { code := RESULT_ERROR_INVALID_PARAMETER, int_value := 0 } ∧
        DivideIntegers a b
          = some { code := ResultCode.InvalidParameter, value := Variant.int 0 }) := by
  constructor
  · intro hb0 hne
    have hq := tdiv_isInt a b ha hb0 hne
    simp [divide_integers, DivideIntegers, c_int_div, hb0, hq, MAKE_SUCCESS, MakeSuccess]
  · intro hb0
    simp [divide_integers, DivideIntegers, hb0, MAKE_ERROR, MakeError]

/-- The division theorem at `-7 / 2` and at `5 / 0`. -/
theorem divide_integers_spec_witness :
    (divide_integers (-7) 2 = some { code := RESULT_SUCCESS, int_value := -3 } ∧
      DivideIntegers (-7) 2 = some { code := ResultCode.Success, value := Variant.int (-3) }) ∧
    (divide_integers 5 0 = some { code := RESULT_ERROR_INVALID_PARAMETER, int_value := 0 } ∧
      DivideIntegers 5 0 = some { code := ResultCode.InvalidParameter, value := Variant.int 0 }) :=
  ⟨let h := (divide_integers_spec (-7) 2 (by decide) (by decide)).1 (by decide) (by decide)
   ⟨h.1, h.2.1⟩,
   (divide_integers_spec 5 0 (by decide) (by decide)).2 rfl⟩

theorem error_messages_lookup (c : Int) (h0 : 0 ≤ c) (h1 : c < 8) :
    ∃ s, error_messages[c.toNat]? = some s := by
  have hlen : c.toNat < error_messages.length := by
    simp only [error_messages, List.length_cons, List.length_nil]
    omega
  exact ⟨error_messages[c.toNat], List.getElem?_eq_getElem hlen⟩

/-- C6. `get_error_string` and `GetErrorString` are total and never return NULL:
every code value `c` yields a string `s`; if `0 <= c < RESULT_ERROR_COUNT` the table
read is in bounds and `s` is the `c`-th of the 8 table entries (`0` gives
"Success", `3` "Invalid parameter", `7` "Network failure"); for every other value,
negative ones and `RESULT_ERROR_COUNT` itself included, `s` is "Unknown error". -/
theorem get_error_string_total (c : Int) :
    ∃ s : String,
      get_error_string c = some s ∧ GetErrorString c = some s ∧
      (0 ≤ c → c < RESULT_ERROR_COUNT →
        c.toNat < error_messages.length ∧ error_messages[c.toNat]? = some s) ∧
      (¬ (0 ≤ c ∧ c < RESULT_ERROR_COUNT) → s = "Unknown error") ∧
      error_messages.length = 8 ∧
      get_error_string 0 = some "Success" ∧
      get_error_string 3 = some "Invalid parameter" ∧
      get_error_string 7 = some "Network failure" ∧
      get_error_string (-1) = some "Unknown error" ∧
      get_error_string RESULT_ERROR_COUNT = some "Unknown error" := by
  by_cases h : 0 ≤ c ∧ c < 8
  · obtain ⟨s, hs⟩ := error_messages_lookup c h.1 h.2
    refine ⟨s, ?_, ?_, ?_, ?_, rfl, rfl, rfl, rfl, rfl, rfl⟩
    · simp [get_error_string, RESULT_ERROR_COUNT, h, hs]
    · simp [GetErrorString, ResultCode.Count, h, hs]
    · intro _ _
      refine ⟨?_, hs⟩
      simp only [error_messages, List.length_cons, List.length_nil]
      omega
    · intro hn
      exact absurd h hn
  · refine ⟨"Unknown error", ?_, ?_, ?_, ?_, rfl, rfl, rfl, rfl, rfl, rfl⟩
    · simp [get_error_string, RESULT_ERROR_COUNT, h]
    · simp [GetErrorString, ResultCode.Count, h]
    · intro h0 h1
      exact absurd ⟨h0, h1⟩ h
    · intro _
      rfl

/-- The message theorem at the codes `4` and `99`. -/
theorem get_error_string_total_witness :
    get_error_string 4 = some "Access denied" ∧ GetErrorString 4 = some "Access denied" ∧
    get_error_string 99 = some "Unknown error" := by
  refine ⟨?_, ?_, ?_⟩
  · obtain ⟨s, h1, _, h3, _⟩ := get_error_string_total 4
    have h := (h3 (by decide) (by decide)).2
    have hs : s = "Access denied" := by
      have : error_messages[(4 : Int).toNat]? = some "Access denied" := rfl
      rw [this] at h
      exact (Option.some.inj h).symm
    rw [h1, hs]
  · obtain ⟨s, _, h2, h3, _⟩ := get_error_string_total 4
    have h := (h3 (by decide) (by decide)).2
    have hs : s = "Access denied" := by
      have : error_messages[(4 : Int).toNat]? = some "Access denied" := rfl
      rw [this] at h
      exact (Option.some.inj h).symm
    rw [h2, hs]
  · obtain ⟨s, h1, _, _, h4, _⟩ := get_error_string_total 99
    rw [h1, h4 (by decide)]

/-! ### File reading -/

theorem free_cons_self (heap : Heap) (p : Nat) (bytes : List Nat) :
    free ((p, bytes) :: heap) p = heap := by
  simp [free, List.eraseP_cons]

/-- C8 (as stated, refuted). A call that fails after the file was opened overwrites
`*buffer`: with `*buffer == (char*)4096` and `*size == 7` before the call, an
allocation failure returns `RESULT_ERROR_INSUFFICIENT_MEMORY` and a short read
returns `RESULT_ERROR_FILE_NOT_FOUND`, and in both cases `*buffer` is NULL
afterwards (while `*size` is still `7`). -/
theorem open_and_read_file_error_overwrites_buffer :
    open_and_read_file noMemoryEnv [] (some "config.dat") (some (some 4096)) (some 7)
      = some { result := MAKE_ERROR RESULT_ERROR_INSUFFICIENT_MEMORY, buffer := some none,
               size := some 7, heap := [] } ∧
    IS_ERROR (MAKE_ERROR RESULT_ERROR_INSUFFICIENT_MEMORY) = true ∧
    open_and_read_file shortReadEnv [] (some "config.dat") (some (some 4096)) (some 7)
      = some { result := MAKE_ERROR RESULT_ERROR_FILE_NOT_FOUND, buffer := some none,
               size := some 7, heap := [] } ∧
    IS_ERROR (MAKE_ERROR RESULT_ERROR_FILE_NOT_FOUND) = true ∧
    (some none : Option CharPtr) ≠ some (some 4096) := by
  decide

/-- C8 (amended). For every call of `open_and_read_file` that returns an error code,
`*size` is the same after the call as before and no allocated block is left
behind; `*buffer` is the same as before when the error is a null argument or an
open failure, and is NULL when the error arises after the file was opened
(allocation failure, short read), so a `*buffer` that was NULL before the call is
unchanged on every error. -/
theorem open_and_read_file_error_frame (env : Env) (heap : Heap)
    (filename : Option String) (buffer : Option CharPtr) (size : Option Nat)
    (out : ReadOutcome)
    (hcall : open_and_read_file env heap filename buffer size = some out)
    (herr : IS_ERROR out.result = true) :
    out.size = size ∧ out.heap = heap ∧
    ((filename = none ∨ buffer = none ∨ size = none ∨
        ∃ name errno, filename = some name ∧ env.fopen name = Except.error errno) →
      out.buffer = buffer) ∧
    (∀ name file, filename = some name → buffer ≠ none → size ≠ none →
        env.fopen name = Except.ok file → out.buffer = some none) ∧
    (buffer = some none → out.buffer = some none) := by
  match filename, buffer, size with
  | some name, some buf0, some size0 =>
    cases hopen : env.fopen name with
    | error errno =>
      simp only [open_and_read_file, hopen] at hcall
      split_ifs at hcall <;>
        (simp only [Option.some.injEq] at hcall; subst hcall;
         refine ⟨rfl, rfl, fun _ => rfl, ?_, fun h => h⟩;
         intro name2 file2 hn _ _ hopen2;
         simp only [Option.some.injEq] at hn; subst hn;
         rw [hopen] at hopen2; cases hopen2)
    | ok file =>
      by_cases h1 : file.ftell_end + 1 > LONG_MAX
      · simp [open_and_read_file, hopen, h1] at hcall
      cases hmalloc : env.malloc (to_size_t (file.ftell_end + 1)) with
      | none =>
        simp [open_and_read_file, hopen, h1, hmalloc] at hcall
        subst hcall
        simp [hopen]
      | some p =>
        by_cases h2 : (fread file (to_size_t file.ftell_end)).length
            > to_size_t (file.ftell_end + 1)
        · simp [open_and_read_file, hopen, h1, hmalloc, h2] at hcall
        by_cases h3 : (fread file (to_size_t file.ftell_end)).length
            ≠ to_size_t file.ftell_end
        · simp [open_and_read_file, hopen, h1, hmalloc, h2, h3] at hcall
          subst hcall
          simp [hopen, free_cons_self]
        by_cases h4 : file.ftell_end < 0
        · simp [open_and_read_file, hopen, h1, hmalloc, h2, h3, h4] at hcall
        simp [open_and_read_file, hopen, h1, hmalloc, h2, h3, h4] at hcall
        subst hcall
        simp [IS_ERROR, MAKE_SUCCESS, RESULT_SUCCESS] at herr
  | none, _, _ =>
    simp [open_and_read_file] at hcall
    subst hcall
    simp
  | some _, none, _ =>
    simp [open_and_read_file] at hcall
    subst hcall
    simp
  | some _, some _, none =>
    simp [open_and_read_file] at hcall
    subst hcall
    simp

/-- The error-frame theorem at an open failure and at a short read. -/
theorem open_and_read_file_error_frame_witness :
    (∃ out, open_and_read_file (openFailsEnv EACCES) [] (some "config.dat")
          (some (some 4096)) (some 7) = some out ∧
        IS_ERROR out.result = true ∧ out.size = some 7 ∧ out.heap = [] ∧
        out.buffer = some (some 4096)) ∧
    (∃ out, open_and_read_file shortReadEnv [] (some "config.dat")
          (some (some 4096)) (some 7) = some out ∧
        IS_ERROR out.result = true ∧ out.size = some 7 ∧ out.heap = [] ∧
        out.buffer = some none) := by
  constructor
  · have hcall : open_and_read_file (openFailsEnv EACCES) [] (some "config.dat")
        (some (some 4096)) (some 7)
        = some { result := MAKE_ERROR RESULT_ERROR_ACCESS_DENIED,
                 buffer := some (some 4096), size := some 7, heap := [] } := by decide
    have h := open_and_read_file_error_frame (openFailsEnv EACCES) [] (some "config.dat")
      (some (some 4096)) (some 7) _ hcall (by decide)
    exact ⟨_, hcall, by decide, h.1, h.2.1,
      h.2.2.1 (Or.inr (Or.inr (Or.inr ⟨"config.dat", EACCES, rfl, rfl⟩)))⟩
  · have hcall : open_and_read_file shortReadEnv [] (some "config.dat")
        (some (some 4096)) (some 7)
        = some { result := MAKE_ERROR RESULT_ERROR_FILE_NOT_FOUND,
                 buffer := some none, size := some 7, heap := [] } := by decide
    have h := open_and_read_file_error_frame shortReadEnv [] (some "config.dat")
      (some (some 4096)) (some 7) _ hcall (by decide)
    exact ⟨_, hcall, by decide, h.1, h.2.1,
      h.2.2.2.1 "config.dat" _ rfl (by decide) (by decide) rfl⟩

/-- The demo of `main` builds `container1` by `container1(10)` and three
`push_back` calls. -/
theorem demo_container1_eq : demo_container1 = Except.ok container1 := rfl

/-- The demo of `main` builds `container2` by `container2(20)`. -/
theorem demo_container2_eq :
    SafeContainer.with_capacity (fun _ => true) 20 = Except.ok container2 := rfl

theorem SafeContainer.copy_loop_spec {T : Type} (source : List (Option T)) :
    ∀ (remaining i : Nat) (dest : List (Option T)),
      i + remaining ≤ source.length → i + remaining = dest.length →
      dest.take i = source.take i →
      SafeContainer.copy_loop source i remaining dest
        = Except.ok (source.take (i + remaining)) := by
  intro remaining
  induction remaining with
  | zero =>
    intro i dest _ hd htake
    simp only [SafeContainer.copy_loop, Nat.add_zero] at hd ⊢
    rw [← htake, hd, List.take_length]
  | succ n ih =>
    intro i dest hs hd htake
    have hi : i < source.length := by omega
    have hid : i < dest.length := by omega
    have hget : source[i]? = some source[i] := List.getElem?_eq_getElem hi
    simp only [SafeContainer.copy_loop, hget, hid, if_true]
    have hidx : i + 1 + n = i + (n + 1) := by omega
    rw [ih (i + 1) (dest.set i source[i]) (by omega) (by simp; omega), hidx]
    · apply List.ext_getElem?
      intro k
      by_cases hk : k < i + 1
      · by_cases hki : k = i
        · subst hki
          simp [List.getElem?_take, hid, hi]
        · have hklt : k < i := by omega
          have h1 := congrArg (fun l => l[k]?) htake
          simp only [List.getElem?_take, hklt, if_true] at h1
          simp [List.getElem?_take, hk, List.getElem?_set, Ne.symm hki, h1]
      · simp [List.getElem?_take, hk]

theorem SafeContainer.copy_ctor_cases {T : Type} (alloc : Nat → Bool) (b : SafeContainer T)
    (hwf : b.WF) :
    SafeContainer.copy_ctor alloc b =
      if b.capacity_ = 0 then
        Except.ok { data_ := none, size_ := b.size_, capacity_ := b.capacity_ }
      else if alloc b.capacity_ = true then
        Except.ok { data_ := b.data_, size_ := b.size_, capacity_ := b.capacity_ }
      else Except.error Fault.bad_alloc := by
  obtain ⟨d, sz, cap⟩ := b
  obtain ⟨_, hdata⟩ := hwf
  by_cases hcap : cap = 0
  · simp [SafeContainer.copy_ctor, SafeContainer.safe_copy, hcap]
  · by_cases hal : alloc cap = true
    · cases d with
      | none => exact absurd hdata hcap
      | some src =>
        simp only at hdata
        have hloop := SafeContainer.copy_loop_spec src cap 0 (List.replicate cap none)
          (by omega) (by simp) (by simp)
        simp only [Nat.zero_add] at hloop
        have htake : src.take cap = src := by rw [← hdata, List.take_length]
        simp [SafeContainer.copy_ctor, SafeContainer.safe_copy, hcap, hal, hloop, htake]
    · simp [SafeContainer.copy_ctor, SafeContainer.safe_copy, hcap, hal]

/-- The class invariant holds after each constructor and after `push_back`. -/
theorem SafeContainer.WF_preserved {T : Type} (alloc : Nat → Bool) :
    (SafeContainer.default_ctor : SafeContainer T).WF ∧
    (∀ (n : Nat) (c : SafeContainer T),
      SafeContainer.with_capacity alloc n = Except.ok c → c.WF) ∧
    (∀ (c c1 : SafeContainer T) (v : T), c.WF → c.push_back v = Except.ok c1 → c1.WF) := by
  refine ⟨?_, ?_, ?_⟩
  · simp [SafeContainer.default_ctor, SafeContainer.WF]
  · intro n c h
    unfold SafeContainer.with_capacity at h
    split_ifs at h
    cases h
    simp [SafeContainer.WF]
  · intro c c1 v hwf h
    obtain ⟨d, sz, cap⟩ := c
    obtain ⟨hsz, hdata⟩ := hwf
    unfold SafeContainer.push_back at h
    simp only at h hsz hdata
    split_ifs at h with h1
    cases d with
    | none => simp at h
    | some cells =>
      simp only at h hdata
      split_ifs at h with h2
      cases h
      simp only [SafeContainer.WF, List.length_set]
      exact ⟨by omega, hdata⟩

/-- C7. Copy assignment (copy-and-swap) `a = b` for containers `a`, `b` of a store
(`b` satisfying the class invariant): the assignment completes whenever the copy
can be allocated, and whenever it completes `a` has the size and the capacity of
`b` and the same element as `b` at every index below size, `a` satisfies the class
invariant, `b` and all other objects are unchanged, and self-assignment leaves the
store unchanged. -/
theorem SafeContainer_copy_assign {T : Type} (alloc : Nat → Bool)
    (objs : List (SafeContainer T)) (ia ib : Nat) (a b : SafeContainer T)
    (ha : objs[ia]? = some a) (hb : objs[ib]? = some b) (hwf : b.WF) :
    ((ia = ib ∨ b.capacity_ = 0 ∨ alloc b.capacity_ = true) →
      ∃ objs1, SafeContainer.copy_assign alloc objs ia ib = Except.ok objs1) ∧
    (∀ objs1, SafeContainer.copy_assign alloc objs ia ib = Except.ok objs1 →
      ∃ a1, objs1[ia]? = some a1 ∧
        a1.size = b.size ∧ a1.capacity = b.capacity ∧
        (∀ i, i < b.size → a1.cell i = b.cell i ∧ a1.subscript i = b.subscript i) ∧
        a1.WF ∧
        objs1[ib]? = some b ∧
        (∀ j, j ≠ ia → objs1[j]? = objs[j]?) ∧
        (ia = ib → objs1 = objs)) := by
  have hia : ia < objs.length := by
    by_contra hcon
    rw [List.getElem?_eq_none (by omega)] at ha
    cases ha
  by_cases hsame : ia = ib
  · subst hsame
    have hab : a = b := by
      rw [ha] at hb
      exact Option.some.inj hb
    subst hab
    have hrun : SafeContainer.copy_assign alloc objs ia ia = Except.ok objs := by
      simp [SafeContainer.copy_assign, ha]
    refine ⟨fun _ => ⟨objs, hrun⟩, ?_⟩
    intro objs1 h1
    rw [hrun] at h1
    cases h1
    exact ⟨a, ha, rfl, rfl, fun i _ => ⟨rfl, rfl⟩, hwf, ha, fun j _ => rfl, fun _ => rfl⟩
  · have hctor := SafeContainer.copy_ctor_cases alloc b hwf
    by_cases hcap : b.capacity_ = 0
    · rw [if_pos hcap] at hctor
      have hrun : SafeContainer.copy_assign alloc objs ia ib
          = Except.ok (objs.set ia (SafeContainer.mk none b.size_ b.capacity_)) := by
        simp [SafeContainer.copy_assign, ha, hb, hsame, hctor, SafeContainer.swap]
      refine ⟨fun _ => ⟨_, hrun⟩, ?_⟩
      intro objs1 h1
      rw [hrun] at h1
      cases h1
      have hsz : b.size_ = 0 := by
        have := hwf.1
        omega
      refine ⟨SafeContainer.mk none b.size_ b.capacity_,
        by simp [List.getElem?_set, hia], rfl, rfl, ?_, ?_, ?_, ?_, ?_⟩
      · intro i hi
        simp only [SafeContainer.size] at hi
        omega
      · simp [SafeContainer.WF, hcap, hsz]
      · rw [List.getElem?_set_ne hsame]
        exact hb
      · intro j hj
        rw [List.getElem?_set_ne (Ne.symm hj)]
      · intro h
        exact absurd h hsame
    · rw [if_neg hcap] at hctor
      by_cases hal : alloc b.capacity_ = true
      · rw [if_pos hal] at hctor
        have hrun : SafeContainer.copy_assign alloc objs ia ib
            = Except.ok (objs.set ia (SafeContainer.mk b.data_ b.size_ b.capacity_)) := by
          simp [SafeContainer.copy_assign, ha, hb, hsame, hctor, SafeContainer.swap]
        refine ⟨fun _ => ⟨_, hrun⟩, ?_⟩
        intro objs1 h1
        rw [hrun] at h1
        cases h1
        refine ⟨SafeContainer.mk b.data_ b.size_ b.capacity_,
          by simp [List.getElem?_set, hia], rfl, rfl, ?_, ?_, ?_, ?_, ?_⟩
        · intro i _
          exact ⟨rfl, rfl⟩
        · exact hwf
        · rw [List.getElem?_set_ne hsame]
          exact hb
        · intro j hj
          rw [List.getElem?_set_ne (Ne.symm hj)]
        · intro h
          exact absurd h hsame
      · rw [if_neg hal] at hctor
        have hrun : SafeContainer.copy_assign alloc objs ia ib
            = Except.error Fault.bad_alloc := by
          simp [SafeContainer.copy_assign, ha, hb, hsame, hctor]
        refine ⟨?_, ?_⟩
        · rintro (h | h | h)
          · exact absurd h hsame
          · exact absurd h hcap
          · exact absurd h hal
        · intro objs1 h1
          rw [hrun] at h1
          cases h1

/-- The copy-assignment theorem at the demo of `main`: `container2 = container1`. -/
theorem SafeContainer_copy_assign_witness :
    ∃ objs1, SafeContainer.copy_assign (fun _ => true) [container1, container2] 1 0
        = Except.ok objs1 ∧
      ∃ c2, objs1[1]? = some c2 ∧ c2.size = 3 ∧ c2.capacity = 10 ∧
        c2.subscript 0 = Except.ok (some 1) ∧ objs1[0]? = some container1 := by
  have hspec := SafeContainer_copy_assign (fun _ => true) [container1, container2] 1 0
    container2 container1 rfl rfl ⟨by decide, rfl⟩
  obtain ⟨objs1, hrun⟩ := hspec.1 (Or.inr (Or.inr rfl))
  obtain ⟨c2, h1, hsize, hcap, helem, _, hb, _, _⟩ := hspec.2 objs1 hrun
  refine ⟨objs1, hrun, c2, h1, hsize, hcap, ?_, hb⟩
  rw [(helem 0 (by decide)).2]
  rfl
